import Mathlib

/-!
Shallow embedding of the SimpleETLBatchProcessingPipeline repository
(`scripts/batch_loader.py`, `scripts/data_cleaner.py`).

Modelling conventions:
* A parsed CSV data row is a `Record` with the two required columns `ts`
  and `device` (absent/NaN is `none`, matching pandas missing values) and
  one pass-through payload column `v`.
* A CSV file handed to `pd.read_csv` is a list of already-parsed lines,
  line 0 being the header line (its `Record` value is never used as data).
* `pd.read_csv(filepath, skiprows=range(1, start_row+1), nrows=nrows)` is
  embedded by `read_csv`: pandas first validates `nrows >= 0` (raising
  `ValueError` otherwise), raises `EmptyDataError` on an empty file, keeps
  exactly the lines whose 0-based index is not in `[1, start_row]`, takes
  the first remaining line as the header and at most `nrows` data lines.
* `datetime.now()` readings made by the row-wise `df.apply` lambda are
  modelled by an explicit clock `clock : Nat → Nat`; the i-th row's lambda
  call reads `clock i`.
* The document store's `insert_many(batch, ordered=False)` is modelled by
  an outcome oracle `outcomes : Nat → WriteOutcome` giving, for each
  sub-batch index, either full success, a `BulkWriteError` carrying
  `details['nInserted']`, or any other (fatal) exception.
* Python exceptions are `Except.error`; a returned statistics dict is a
  Lean structure with the source's key names as field names.
-/

namespace ETL

/-- One parsed CSV data row: required columns `ts` and `device`
(`none` models a pandas missing value / NaN) plus a payload column. -/
structure Record where
  ts : Option Nat
  device : Option String
  v : Nat
deriving DecidableEq

/-- The mutable counter structure `DataCleaner.stats`
(`data_cleaner.py`, `__init__`). -/
structure CleansingStats where
  duplicates_removed : Nat
  missing_values_dropped : Nat
deriving DecidableEq

/-- The deduplication key `subset=['ts', 'device']` used by
`drop_duplicates` (pandas treats NaN as equal to NaN here, which `Option`
equality reproduces). -/
def dedupKey (r : Record) : Option Nat × Option String := (r.ts, r.device)

/-- `df.drop_duplicates(subset=['ts', 'device'], keep='first')`:
keep the first occurrence of each key, in original order.
`seen` is the set of keys already kept. -/
def dropDuplicatesGo (seen : List (Option Nat × Option String)) :
    List Record → List Record
  | [] => []
  | r :: rs =>
    if dedupKey r ∈ seen then dropDuplicatesGo seen rs
    else r :: dropDuplicatesGo (dedupKey r :: seen) rs

/-- `DataCleaner._remove_duplicates`: drop duplicates and add the number
of dropped rows to `stats['duplicates_removed']`. -/
def remove_duplicates (stats : CleansingStats) (df : List Record) :
    CleansingStats × List Record :=
  let df2 := dropDuplicatesGo [] df
  ({ stats with
      duplicates_removed := stats.duplicates_removed + (df.length - df2.length) },
   df2)

/-- `df.dropna(subset=['ts', 'device'])` keeps exactly the rows where both
required columns are present. -/
def dropnaKeep (r : Record) : Bool := r.ts.isSome && r.device.isSome

/-- `DataCleaner._handle_missing_values`: drop rows with a missing `ts` or
`device` and add the number dropped to `stats['missing_values_dropped']`. -/
def handle_missing_values (stats : CleansingStats) (df : List Record) :
    CleansingStats × List Record :=
  let df2 := df.filter dropnaKeep
  ({ stats with
      missing_values_dropped := stats.missing_values_dropped + (df.length - df2.length) },
   df2)

/-- `DataCleaner.cleanse`: `_remove_duplicates` then
`_handle_missing_values`, threading the cleaner's cumulative stats. -/
def cleanse (stats : CleansingStats) (df : List Record) :
    CleansingStats × List Record :=
  let p1 := remove_duplicates stats df
  handle_missing_values p1.1 p1.2

/-- Python file iteration: the number of lines yielded by `for _ in f`.
A line is a newline-terminated chunk; a final chunk without a newline is
yielded iff non-empty (a lone final character always makes a line). -/
def pyLineCount : List Char → Nat
  | [] => 0
  | [_] => 1
  | c :: c2 :: rest =>
    (if c = '\n' then 1 else 0) + pyLineCount (c2 :: rest)

/-- `get_csv_row_count` (`batch_loader.py`): `sum(1 for _ in f) - 1`,
Python integer subtraction. -/
def get_csv_row_count (contents : List Char) : Int :=
  (pyLineCount contents : Int) - 1

/-- A text file whose lines are `lines`, each line separated from the
next by a newline character, with (`tnl = true`) or without
(`tnl = false`) a final trailing newline. -/
def encodeLines : List (List Char) → Bool → List Char
  | [], _ => []
  | [l], tnl => l ++ (if tnl then ['\n'] else [])
  | l :: l2 :: rest, tnl => l ++ '\n' :: encodeLines (l2 :: rest) tnl

/-- `skiprows=range(1, start_row + 1)` keeps the file line with 0-based
index `i` iff `i` is not in `[1, start_row]`. -/
def keepLineIdx (start_row : Nat) (i : Nat) : Bool :=
  !(decide (1 ≤ i) && decide (i ≤ start_row))

/-- Keep exactly the elements whose position satisfies `p`, positions
counted from `i`. -/
def filterIdx (p : Nat → Bool) : Nat → List α → List α
  | _, [] => []
  | i, x :: xs => if p i then x :: filterIdx p (i + 1) xs else filterIdx p (i + 1) xs

/-- The file lines surviving `skiprows=range(1, start_row + 1)`. -/
def keepLines (lines : List α) (start_row : Nat) : List α :=
  filterIdx (keepLineIdx start_row) 0 lines

/-- `pd.read_csv(filepath, skiprows=range(1, start_row+1), nrows=nrows)`:
`nrows` is validated non-negative before anything is read (`ValueError`
otherwise); an empty file raises `EmptyDataError`; otherwise the first
surviving line is consumed as the header and at most `nrows` data lines
are parsed. -/
def read_csv (lines : List Record) (start_row : Nat) (nrows : Int) :
    Except String (List Record) :=
  if nrows < 0 then Except.error "nrows must be an integer >= 0"
  else if lines = [] then Except.error "No columns to parse from file"
  else Except.ok (((keepLines lines start_row).tail).take nrows.toNat)

/-- `pd.read_csv(filepath)` (full-file read): an empty file raises
`EmptyDataError`; otherwise line 0 is the header and the rest are data. -/
def read_csv_full (lines : List Record) : Except String (List Record) :=
  if lines = [] then Except.error "No columns to parse from file"
  else Except.ok lines.tail

/-- The `_metadata` dict built by the row-wise `df.apply` lambda:
`ingested_at` is a fresh `datetime.now()` reading, `batch_id` the captured
batch id, and `source_rows` the captured range string (absent,
i.e. `none`, in `load_full_csv`). -/
structure Metadata where
  ingested_at : Nat
  batch_id : String
  source_rows : Option String
deriving DecidableEq

/-- One element of `df.to_dict('records')` after the `_metadata` column
assignment: the row's own fields plus its `_metadata` value. -/
structure DocRecord where
  row : Record
  metadata : Metadata
deriving DecidableEq

/-- `df['_metadata'] = df.apply(lambda _: {...}, axis=1)`: the lambda runs
once per row in order; the i-th run reads the wall clock as `clock i`. -/
def attachMetaGo (clock : Nat → Nat) (bid : String) (sr : Option String) :
    Nat → List Record → List DocRecord
  | _, [] => []
  | i, r :: rs =>
    ⟨r, ⟨clock i, bid, sr⟩⟩ :: attachMetaGo clock bid sr (i + 1) rs

/-- Metadata attachment for a whole cleansed batch. -/
def attachMeta (clock : Nat → Nat) (bid : String) (sr : Option String)
    (df : List Record) : List DocRecord :=
  attachMetaGo clock bid sr 0 df

/-- Outcome of one `collection.insert_many(batch, ordered=False)` call:
full success (one inserted id per document), a `BulkWriteError` whose
`details['nInserted']` is `nInserted`, or any other exception (connection
failure etc.), which the loader does not catch. -/
inductive WriteOutcome where
  | ok : WriteOutcome
  | bulkError (nInserted : Nat) : WriteOutcome
  | fatal (msg : String) : WriteOutcome
deriving DecidableEq

/-- Whether an outcome is an uncaught (non-`BulkWriteError`) exception. -/
def WriteOutcome.isFatal : WriteOutcome → Bool
  | .fatal _ => true
  | _ => false

/-- The slices `records[i:i+batch_size]` for `i in range(0, len(records),
batch_size)`. Structural recursion on a fuel argument (`records.length`
suffices whenever `batch_size ≥ 1`; the `batch_size = 0` case never runs,
since `range(_, _, 0)` raises before any slicing). -/
def toChunksGo (bs : Nat) : Nat → List α → List (List α)
  | _, [] => []
  | 0, x :: l => [x :: l]
  | fuel + 1, x :: l =>
    (x :: l).take bs :: toChunksGo bs fuel ((x :: l).drop bs)

/-- Partition `records` into the consecutive sub-batches the write loop
iterates over. -/
def toChunks (bs : Nat) (records : List α) : List (List α) :=
  toChunksGo bs records.length records

/-- The write loop of `load_csv_chunk` / `load_full_csv`: for each
sub-batch, on success add `len(result.inserted_ids)` (= the sub-batch
length), on `BulkWriteError` add `e.details.get('nInserted', 0)` and
continue, and let any other exception propagate. `j` is the sub-batch
index, `acc` the `inserted_count` accumulator. -/
def runInserts (outcomes : Nat → WriteOutcome) :
    List (List DocRecord) → Nat → Nat → Except String Nat
  | [], _, acc => Except.ok acc
  | batch :: rest, j, acc =>
    match outcomes j with
    | .ok => runInserts outcomes rest (j + 1) (acc + batch.length)
    | .bulkError n => runInserts outcomes rest (j + 1) (acc + n)
    | .fatal msg => Except.error msg

/-- The `BatchLoader` state the load calls read and write: the configured
sub-batch size and the single `DataCleaner` constructed in `__init__`
(whose only state is its cumulative stats). -/
structure BatchLoader where
  batch_size : Nat
  cleaner : CleansingStats
deriving DecidableEq

/-- The statistics dict returned by `load_csv_chunk` (source key names;
`rows_read` is the requested `nrows = end_row - start_row`, an `int`). -/
structure ChunkStats where
  rows_read : Int
  rows_after_cleansing : Nat
  rows_inserted : Nat
  cleansing_stats : CleansingStats
  batch_id : String
deriving DecidableEq

/-- The statistics dict returned by `load_full_csv` (source key names). -/
structure FullStats where
  total_rows_read : Nat
  rows_after_cleansing : Nat
  rows_inserted : Nat
  cleansing_stats : CleansingStats
  batch_id : String
deriving DecidableEq

/-- `BatchLoader.load_csv_chunk`. Besides the returned statistics dict,
the result records the updated cleaner state (first component) and the
list of documents handed to the write loop (second component), which the
Python object graph holds implicitly. `clock` models the successive
`datetime.now()` readings of the metadata lambda; `outcomes` models the
store's response to each sub-batch. -/
def load_csv_chunk (loader : BatchLoader) (clock : Nat → Nat)
    (outcomes : Nat → WriteOutcome) (lines : List Record)
    (start_row end_row : Nat) (batch_id : String) :
    Except String (CleansingStats × List DocRecord × ChunkStats) :=
  match read_csv lines start_row ((end_row : Int) - (start_row : Int)) with
  | Except.error e => Except.error e
  | Except.ok df =>
    let p := cleanse loader.cleaner df
    let docs := attachMeta clock batch_id (some s!"{start_row}-{end_row}") p.2
    if loader.batch_size = 0 then Except.error "range() arg 3 must not be zero"
    else
      match runInserts outcomes (toChunks loader.batch_size docs) 0 0 with
      | Except.error e => Except.error e
      | Except.ok inserted =>
        Except.ok (p.1, docs,
          { rows_read := (end_row : Int) - (start_row : Int)
            rows_after_cleansing := p.2.length
            rows_inserted := inserted
            cleansing_stats := p.1
            batch_id := batch_id })

/-- `BatchLoader.load_full_csv`. `now_str` models
`datetime.now().strftime('%Y%m%d_%H%M%S')`, used only when no batch id is
supplied. -/
def load_full_csv (loader : BatchLoader) (clock : Nat → Nat)
    (outcomes : Nat → WriteOutcome) (lines : List Record)
    (batch_idOpt : Option String) (now_str : String) :
    Except String (CleansingStats × List DocRecord × FullStats) :=
  let batch_id := batch_idOpt.getD ("full_" ++ now_str)
  match read_csv_full lines with
  | Except.error e => Except.error e
  | Except.ok df =>
    let total_rows := df.length
    let p := cleanse loader.cleaner df
    let docs := attachMeta clock batch_id none p.2
    if loader.batch_size = 0 then Except.error "range() arg 3 must not be zero"
    else
      match runInserts outcomes (toChunks loader.batch_size docs) 0 0 with
      | Except.error e => Except.error e
      | Except.ok inserted =>
        Except.ok (p.1, docs,
          { total_rows_read := total_rows
            rows_after_cleansing := p.2.length
            rows_inserted := inserted
            cleansing_stats := p.1
            batch_id := batch_id })

/-- The amount the write loop adds to `inserted_count` for each remaining
sub-batch, sub-batch indices counted from `j` (a fatal outcome contributes
nothing — the loop never reaches past it). -/
def expectedInserted (outcomes : Nat → WriteOutcome) :
    List (List DocRecord) → Nat → Nat
  | [], _ => 0
  | c :: rest, j =>
    (match outcomes j with
      | .ok => c.length
      | .bulkError n => n
      | .fatal _ => 0) + expectedInserted outcomes rest (j + 1)

/-! Concrete fixtures used by closed theorems: a header line and a few
data rows. -/

/-- A header line (line 0 of a CSV file; never parsed as data). -/
def wHdr : Record := ⟨none, none, 0⟩

/-- Data row with key `(1, "A")`, payload 1. -/
def wA : Record := ⟨some 1, some "A", 1⟩

/-- Data row duplicating `wA` on the `(ts, device)` key, payload 2. -/
def wA2 : Record := ⟨some 1, some "A", 2⟩

/-- Data row with key `(2, "B")`. -/
def wB : Record := ⟨some 2, some "B", 2⟩

/-- Data row with a missing `device`. -/
def wMiss : Record := ⟨some 5, none, 3⟩

/-- The 10-data-row file of the end-to-end scenario: data rows 2 and 5
(1-based) duplicate rows 1 and 4 on `(ts, device)`, data row 8 has a
missing `device`, all other keys are distinct and complete. -/
def file10 : List Record :=
  [wHdr,
   ⟨some 1, some "A", 1⟩, ⟨some 1, some "A", 2⟩, ⟨some 3, some "A", 3⟩,
   ⟨some 4, some "B", 4⟩, ⟨some 4, some "B", 5⟩, ⟨some 6, some "A", 6⟩,
   ⟨some 7, some "C", 7⟩, ⟨some 8, none, 8⟩, ⟨some 9, some "A", 9⟩,
   ⟨some 10, some "B", 10⟩]

/-- Result of the first load of the C9 witness scenario. -/
def wR1 : CleansingStats × List DocRecord × ChunkStats :=
  (⟨1, 0⟩, [⟨wA, ⟨0, "b1", some "0-2"⟩⟩], ⟨2, 1, 1, ⟨1, 0⟩, "b1"⟩)

/-- Result of the second load of the C9 witness scenario, on the same
loader (cumulative stats). -/
def wR2 : CleansingStats × List DocRecord × ChunkStats :=
  (⟨1, 1⟩, [], ⟨1, 0, 0, ⟨1, 1⟩, "b2"⟩)

/-- Result of the second load of the C9 witness scenario when run on a
freshly constructed loader (per-call stats). -/
def wR2f : CleansingStats × List DocRecord × ChunkStats :=
  (⟨0, 1⟩, [], ⟨1, 0, 0, ⟨0, 1⟩, "b2"⟩)

/-- Result of the C1 witness load (constant clock). -/
def wC1r : CleansingStats × List DocRecord × ChunkStats :=
  (⟨0, 0⟩,
   [⟨wA, ⟨7, "b", some "0-2"⟩⟩, ⟨wB, ⟨7, "b", some "0-2"⟩⟩],
   ⟨2, 2, 2, ⟨0, 0⟩, "b"⟩)

end ETL

namespace ETL

/-! ### Cleanser lemmas -/

theorem dropDuplicatesGo_length_le (seen : List (Option Nat × Option String)) :
    ∀ l : List Record, (dropDuplicatesGo seen l).length ≤ l.length := by
  intro l
  induction l generalizing seen with
  | nil => simp [dropDuplicatesGo]
  | cons r rs ih =>
    simp only [dropDuplicatesGo]
    split
    · exact Nat.le_trans (ih seen) (Nat.le_succ _)
    · simpa using ih (dedupKey r :: seen)

theorem dropDuplicatesGo_key_not_seen (seen : List (Option Nat × Option String)) :
    ∀ l : List Record, ∀ r ∈ dropDuplicatesGo seen l, dedupKey r ∉ seen := by
  intro l
  induction l generalizing seen with
  | nil => simp [dropDuplicatesGo]
  | cons r rs ih =>
    simp only [dropDuplicatesGo]
    split
    · exact ih seen
    · intro x hx
      rcases List.mem_cons.mp hx with h | h
      · subst h; assumption
      · intro hmem
        exact (ih (dedupKey r :: seen) x h) (List.mem_cons_of_mem _ hmem)

theorem dropDuplicatesGo_pairwise (seen : List (Option Nat × Option String)) :
    ∀ l : List Record,
      (dropDuplicatesGo seen l).Pairwise (fun a b => dedupKey a ≠ dedupKey b) := by
  intro l
  induction l generalizing seen with
  | nil => simp [dropDuplicatesGo]
  | cons r rs ih =>
    simp only [dropDuplicatesGo]
    split
    · exact ih seen
    · refine List.Pairwise.cons ?_ (ih (dedupKey r :: seen))
      intro b hb
      have := dropDuplicatesGo_key_not_seen (dedupKey r :: seen) rs b hb
      intro heq
      exact this (heq ▸ List.mem_cons_self _ _)

theorem dropDuplicatesGo_eq_self (l : List Record)
    (hp : l.Pairwise (fun a b => dedupKey a ≠ dedupKey b)) :
    ∀ seen, (∀ r ∈ l, dedupKey r ∉ seen) → dropDuplicatesGo seen l = l := by
  induction l with
  | nil => intro seen _; rfl
  | cons r rs ih =>
    intro seen hseen
    have hr : dedupKey r ∉ seen := hseen r (List.mem_cons_self _ _)
    simp only [dropDuplicatesGo, if_neg hr]
    congr 1
    refine ih (List.Pairwise.of_cons hp) _ ?_
    intro x hx
    intro hmem
    rcases List.mem_cons.mp hmem with h | h
    · exact (List.rel_of_pairwise_cons hp hx) h.symm
    · exact hseen x (List.mem_cons_of_mem _ hx) h

/-- C5: `cleanse` never lengthens a batch, and one call increases
`duplicates_removed + missing_values_dropped` by exactly the number of
rows it dropped — no row is double-counted or lost between the two
counters. -/
theorem c5_cleanse_conservation (s : CleansingStats) (b : List Record) :
    (cleanse s b).2.length ≤ b.length ∧
    (cleanse s b).1.duplicates_removed + (cleanse s b).1.missing_values_dropped
      = (s.duplicates_removed + s.missing_values_dropped)
        + (b.length - (cleanse s b).2.length) := by
  have h1 : (dropDuplicatesGo [] b).length ≤ b.length :=
    dropDuplicatesGo_length_le [] b
  have h2 : ((dropDuplicatesGo [] b).filter dropnaKeep).length
      ≤ (dropDuplicatesGo [] b).length := List.length_filter_le _ _
  simp only [cleanse, remove_duplicates, handle_missing_values]
  constructor
  · exact Nat.le_trans h2 h1
  · omega

/-- C6: cleansing is idempotent — re-cleansing an already-cleansed batch
returns it unchanged, drops no rows, and leaves the cumulative counters
exactly as they were. -/
theorem c6_cleanse_idempotent (s s2 : CleansingStats) (b : List Record) :
    cleanse s2 (cleanse s b).2 = (s2, (cleanse s b).2) := by
  have hpair : ((dropDuplicatesGo [] b).filter dropnaKeep).Pairwise
      (fun a b => dedupKey a ≠ dedupKey b) :=
    List.Pairwise.filter _ (dropDuplicatesGo_pairwise [] b)
  have hdedup : dropDuplicatesGo [] ((dropDuplicatesGo [] b).filter dropnaKeep)
      = (dropDuplicatesGo [] b).filter dropnaKeep :=
    dropDuplicatesGo_eq_self _ hpair [] (by intro r _; simp)
  have hfilter : ((dropDuplicatesGo [] b).filter dropnaKeep).filter dropnaKeep
      = (dropDuplicatesGo [] b).filter dropnaKeep := by
    apply List.filter_eq_self.mpr
    intro a ha
    exact List.of_mem_filter ha
  simp only [cleanse, remove_duplicates, handle_missing_values, hdedup, hfilter,
    Nat.sub_self, Nat.add_zero]

end ETL

namespace ETL

/-! ### Loader inversion and cumulative-stats lemmas -/

theorem cleanse_stats_shift (s : CleansingStats) (b : List Record) :
    (cleanse s b).1.duplicates_removed
        = s.duplicates_removed + (cleanse ⟨0, 0⟩ b).1.duplicates_removed
      ∧ (cleanse s b).1.missing_values_dropped
        = s.missing_values_dropped + (cleanse ⟨0, 0⟩ b).1.missing_values_dropped
      ∧ (cleanse s b).2 = (cleanse ⟨0, 0⟩ b).2 := by
  refine ⟨?_, ?_, ?_⟩ <;>
    simp only [cleanse, remove_duplicates, handle_missing_values] <;>
    first
      | rfl
      | omega

theorem load_csv_chunk_ok_inv {loader : BatchLoader} {clock : Nat → Nat}
    {outcomes : Nat → WriteOutcome} {lines : List Record}
    {sr er : Nat} {bid : String}
    {r : CleansingStats × List DocRecord × ChunkStats}
    (h : load_csv_chunk loader clock outcomes lines sr er bid = Except.ok r) :
    ∃ df, read_csv lines sr ((er : Int) - (sr : Int)) = Except.ok df ∧
      r.1 = (cleanse loader.cleaner df).1 ∧
      r.2.1 = attachMeta clock bid (some s!"{sr}-{er}") (cleanse loader.cleaner df).2 ∧
      r.2.2.cleansing_stats = (cleanse loader.cleaner df).1 ∧
      r.2.2.batch_id = bid ∧
      r.2.2.rows_after_cleansing = (cleanse loader.cleaner df).2.length ∧
      r.2.2.rows_read = (er : Int) - (sr : Int) := by
  unfold load_csv_chunk at h
  cases hread : read_csv lines sr ((er : Int) - (sr : Int)) with
  | error e => rw [hread] at h; simp at h
  | ok df =>
    rw [hread] at h
    simp only [] at h
    refine ⟨df, rfl, ?_⟩
    by_cases hbs : loader.batch_size = 0
    · rw [if_pos hbs] at h; simp at h
    · rw [if_neg hbs] at h
      cases hrun : runInserts outcomes
          (toChunks loader.batch_size
            (attachMeta clock bid (some s!"{sr}-{er}") (cleanse loader.cleaner df).2)) 0 0 with
      | error e => rw [hrun] at h; simp at h
      | ok n =>
        rw [hrun] at h
        simp only [Except.ok.injEq] at h
        subst h
        simp

/-- C9: the loader constructs a single `DataCleaner` in `__init__` and
reuses it across load calls, so the `cleansing_stats` snapshot returned by
a second `load_csv_chunk` on the same loader is the cumulative total of
both calls' drops, while the same second call on a freshly constructed
loader reports that call's drops alone. -/
theorem c9_stats_cumulative_across_calls (bs : Nat)
    (clock1 clock2 : Nat → Nat) (out1 out2 : Nat → WriteOutcome)
    (lines1 lines2 : List Record) (sr1 er1 sr2 er2 : Nat) (bid1 bid2 : String)
    (r1 r2 r2f : CleansingStats × List DocRecord × ChunkStats)
    (_h1 : load_csv_chunk ⟨bs, ⟨0, 0⟩⟩ clock1 out1 lines1 sr1 er1 bid1 = Except.ok r1)
    (h2 : load_csv_chunk ⟨bs, r1.2.2.cleansing_stats⟩ clock2 out2 lines2 sr2 er2 bid2
            = Except.ok r2)
    (h2f : load_csv_chunk ⟨bs, ⟨0, 0⟩⟩ clock2 out2 lines2 sr2 er2 bid2 = Except.ok r2f) :
    r2.2.2.cleansing_stats.duplicates_removed
        = r1.2.2.cleansing_stats.duplicates_removed
          + r2f.2.2.cleansing_stats.duplicates_removed
      ∧ r2.2.2.cleansing_stats.missing_values_dropped
        = r1.2.2.cleansing_stats.missing_values_dropped
          + r2f.2.2.cleansing_stats.missing_values_dropped := by
  obtain ⟨df2, hread2, -, -, hst2, -⟩ := load_csv_chunk_ok_inv h2
  obtain ⟨df2f, hread2f, -, -, hst2f, -⟩ := load_csv_chunk_ok_inv h2f
  have hdf : df2 = df2f := Except.ok.inj (hread2.symm.trans hread2f)
  subst hdf
  have hshift := cleanse_stats_shift (r1.2.2.cleansing_stats) df2
  rw [hst2, hst2f]
  exact ⟨hshift.1, hshift.2.1⟩

end ETL

namespace ETL

/-- C9 witness: a fresh loader load, a second load reusing the first
loader's cleaner stats, and the same second load on a fresh loader, all
evaluated concretely; the second call's snapshot is cumulative. -/
theorem c9_stats_cumulative_across_calls_witness :
    (load_csv_chunk ⟨1000, ⟨0, 0⟩⟩ (fun _ => 0) (fun _ => WriteOutcome.ok)
        [wHdr, wA, wA2] 0 2 "b1" = Except.ok wR1) ∧
    (load_csv_chunk ⟨1000, wR1.2.2.cleansing_stats⟩ (fun _ => 0)
        (fun _ => WriteOutcome.ok) [wHdr, wMiss] 0 1 "b2" = Except.ok wR2) ∧
    (load_csv_chunk ⟨1000, ⟨0, 0⟩⟩ (fun _ => 0) (fun _ => WriteOutcome.ok)
        [wHdr, wMiss] 0 1 "b2" = Except.ok wR2f) ∧
    (wR2.2.2.cleansing_stats.duplicates_removed
        = wR1.2.2.cleansing_stats.duplicates_removed
          + wR2f.2.2.cleansing_stats.duplicates_removed
      ∧ wR2.2.2.cleansing_stats.missing_values_dropped
        = wR1.2.2.cleansing_stats.missing_values_dropped
          + wR2f.2.2.cleansing_stats.missing_values_dropped) :=
  ⟨rfl, rfl, rfl,
    c9_stats_cumulative_across_calls 1000 (fun _ => 0) (fun _ => 0)
      (fun _ => WriteOutcome.ok) (fun _ => WriteOutcome.ok)
      [wHdr, wA, wA2] [wHdr, wMiss] 0 2 0 1 "b1" "b2" wR1 wR2 wR2f rfl rfl rfl⟩

/-! ### Provenance metadata (C1) -/

theorem attachMetaGo_mem {clock : Nat → Nat} {bid : String} {sr : Option String} :
    ∀ (df : List Record) (i : Nat), ∀ d ∈ attachMetaGo clock bid sr i df,
      ∃ n, d.metadata = ⟨clock n, bid, sr⟩ := by
  intro df
  induction df with
  | nil => intro i d hd; simp [attachMetaGo] at hd
  | cons r rs ih =>
    intro i d hd
    rcases List.mem_cons.mp hd with h | h
    · exact ⟨i, by rw [h]⟩
    · exact ih (i + 1) d h

/-- C1 counterexample: a concrete `load_csv_chunk` call during which the
wall clock advances by one tick per row (`clock i = i`) writes two
records with `ingested_at` readings 0 and 1 — the records of one call do
not all share the same `ingested_at`, because `datetime.now()` runs inside
the per-row `df.apply` lambda, not once per batch. -/
theorem c1_provenance_counterexample :
    ((load_csv_chunk ⟨1000, ⟨0, 0⟩⟩ (fun i => i) (fun _ => WriteOutcome.ok)
        [wHdr, wA, wB] 0 2 "b").toOption.map
      (fun r => r.2.1.map (fun d => d.metadata.ingested_at)) = some [0, 1])
    ∧ (0 : Nat) ≠ 1 :=
  ⟨rfl, by decide⟩

/-- C1 (amended): every record written by one `load_csv_chunk` call
carries the caller's `batch_id` and the range string
`"{start_row}-{end_row}"`; `ingested_at` is a per-record `datetime.now()`
reading taken during annotation (before the write loop), so the records
share one `ingested_at` whenever the clock readings during annotation
coincide — but only then. -/
theorem c1_provenance_amended (loader : BatchLoader) (clock : Nat → Nat)
    (out : Nat → WriteOutcome) (lines : List Record) (sr er : Nat)
    (bid : String) (r : CleansingStats × List DocRecord × ChunkStats)
    (h : load_csv_chunk loader clock out lines sr er bid = Except.ok r) :
    (∀ d ∈ r.2.1, d.metadata.batch_id = bid
        ∧ d.metadata.source_rows = some s!"{sr}-{er}") ∧
    ((∀ i j : Nat, clock i = clock j) →
      ∀ d ∈ r.2.1, ∀ d2 ∈ r.2.1,
        d.metadata.ingested_at = d2.metadata.ingested_at) := by
  obtain ⟨df, -, -, hdocs, -⟩ := load_csv_chunk_ok_inv h
  constructor
  · intro d hd
    rw [hdocs] at hd
    obtain ⟨n, hn⟩ := attachMetaGo_mem _ 0 d hd
    rw [hn]
    exact ⟨rfl, rfl⟩
  · intro hclock d hd d2 hd2
    rw [hdocs] at hd hd2
    obtain ⟨n, hn⟩ := attachMetaGo_mem _ 0 d hd
    obtain ⟨m, hm⟩ := attachMetaGo_mem _ 0 d2 hd2
    rw [hn, hm]
    exact hclock n m

/-- C1 witness: a concrete chunk load under a constant clock; all written
records share `batch_id`, `source_rows` and `ingested_at`. -/
theorem c1_provenance_amended_witness :
    (load_csv_chunk ⟨1000, ⟨0, 0⟩⟩ (fun _ => 7) (fun _ => WriteOutcome.ok)
        [wHdr, wA, wB] 0 2 "b" = Except.ok wC1r) ∧
    (∀ d ∈ wC1r.2.1, d.metadata.batch_id = "b"
        ∧ d.metadata.source_rows = some s!"{(0 : Nat)}-{(2 : Nat)}") ∧
    (∀ d ∈ wC1r.2.1, ∀ d2 ∈ wC1r.2.1,
        d.metadata.ingested_at = d2.metadata.ingested_at) := by
  have h := c1_provenance_amended ⟨1000, ⟨0, 0⟩⟩ (fun _ => 7)
    (fun _ => WriteOutcome.ok) [wHdr, wA, wB] 0 2 "b" wC1r rfl
  exact ⟨rfl, h.1, h.2 (fun _ _ => rfl)⟩

end ETL

namespace ETL

/-! ### Range handling (C2, C7) -/

/-- C2 counterexample: with `start_row = 1 > end_row = 0` the chunk load
does not return an empty batch — `nrows = -1` fails pandas' validation and
the call raises (`ValueError`), contradicting the claim for
`start_row > end_row`. -/
theorem c2_empty_range_counterexample :
    load_csv_chunk ⟨1000, ⟨0, 0⟩⟩ (fun _ => 0) (fun _ => WriteOutcome.ok)
        [wHdr] 1 0 "b"
      = Except.error "nrows must be an integer >= 0" := rfl

/-- C2 (amended): for `start_row = end_row` the chunk load returns an
empty batch (zero rows read, cleansed and inserted, cleaner stats
untouched) and raises no error; for `start_row > end_row` the negative
`nrows` is rejected and the call raises. -/
theorem c2_empty_range_amended (loader : BatchLoader) (clock : Nat → Nat)
    (out : Nat → WriteOutcome) (lines : List Record) (sr er : Nat)
    (bid : String) (hbs : 0 < loader.batch_size) (hne : lines ≠ []) :
    (sr = er → load_csv_chunk loader clock out lines sr er bid
        = Except.ok (loader.cleaner, [], ⟨0, 0, 0, loader.cleaner, bid⟩)) ∧
    (er < sr → load_csv_chunk loader clock out lines sr er bid
        = Except.error "nrows must be an integer >= 0") := by
  constructor
  · rintro rfl
    have h0 : (sr : Int) - (sr : Int) = 0 := by omega
    have hread : read_csv lines sr ((sr : Int) - (sr : Int)) = Except.ok [] := by
      unfold read_csv
      rw [h0, if_neg (by omega), if_neg hne]
      rfl
    unfold load_csv_chunk
    rw [hread]
    simp only [if_neg (Nat.pos_iff_ne_zero.mp hbs), h0]
    rfl
  · intro hlt
    have hread : read_csv lines sr ((er : Int) - (sr : Int))
        = Except.error "nrows must be an integer >= 0" := by
      unfold read_csv
      rw [if_pos (by omega)]
    unfold load_csv_chunk
    rw [hread]

/-- C2 witness: a concrete loader and one-line file with
`start_row = end_row = 3`. -/
theorem c2_empty_range_amended_witness :
    (0 : Nat) < 1000 ∧ ([wHdr] ≠ ([] : List Record)) ∧
    load_csv_chunk ⟨1000, ⟨0, 0⟩⟩ (fun _ => 0) (fun _ => WriteOutcome.ok)
        [wHdr] 3 3 "b"
      = Except.ok (⟨0, 0⟩, [], ⟨0, 0, 0, ⟨0, 0⟩, "b"⟩) :=
  ⟨by decide, by decide,
    (c2_empty_range_amended ⟨1000, ⟨0, 0⟩⟩ (fun _ => 0)
      (fun _ => WriteOutcome.ok) [wHdr] 3 3 "b" (by decide) (by decide)).1 rfl⟩

theorem filterIdx_drop_of_pos (s : Nat) :
    ∀ (l : List Record) (k : Nat), 1 ≤ k →
      filterIdx (keepLineIdx s) k l = l.drop (s + 1 - k) := by
  intro l
  induction l with
  | nil => intro k _; simp [filterIdx]
  | cons x xs ih =>
    intro k hk
    by_cases hks : k ≤ s
    · have hkeep : keepLineIdx s k = false := by
        simp [keepLineIdx, hk, hks]
      simp only [filterIdx, hkeep, Bool.false_eq_true, if_false]
      rw [ih (k + 1) (by omega)]
      have : s + 1 - k = (s - k) + 1 := by omega
      rw [this, List.drop_succ_cons]
      congr 1
      omega
    · have hkeep : keepLineIdx s k = true := by
        simp [keepLineIdx, hks]
      simp only [filterIdx, hkeep, if_true]
      rw [ih (k + 1) (by omega)]
      have h1 : s + 1 - k = 0 := by omega
      have h2 : s + 1 - (k + 1) = 0 := by omega
      rw [h1, h2, List.drop_zero, List.drop_zero]

theorem keepLines_cons (s : Nat) (h : Record) (ds : List Record) :
    keepLines (h :: ds) s = h :: ds.drop s := by
  have hkeep : keepLineIdx s 0 = true := by simp [keepLineIdx]
  unfold keepLines
  simp only [filterIdx, hkeep, if_true]
  rw [filterIdx_drop_of_pos s ds 1 (by omega)]
  congr 1

/-- C7: for `start ≤ finish`, the range read of `load_csv_chunk` never
raises, returns exactly the data rows with 0-based index in
`[start, finish)` (the header line is neither counted nor returned),
hence exactly `finish - start` records when `finish` is within the file,
and every data row from `start` to EOF when `finish` lies beyond it. -/
theorem c7_range_read (hdr : Record) (dataRows : List Record)
    (start finish : Nat) (hse : start ≤ finish) :
    read_csv (hdr :: dataRows) start ((finish : Int) - (start : Int))
        = Except.ok ((dataRows.drop start).take (finish - start)) ∧
    (finish ≤ dataRows.length →
      ((dataRows.drop start).take (finish - start)).length = finish - start) ∧
    (dataRows.length ≤ finish →
      (dataRows.drop start).take (finish - start) = dataRows.drop start) := by
  refine ⟨?_, ?_, ?_⟩
  · unfold read_csv
    rw [if_neg (by omega), if_neg (by simp)]
    rw [keepLines_cons]
    have : ((finish : Int) - (start : Int)).toNat = finish - start := by omega
    rw [List.tail_cons, this]
  · intro hle
    rw [List.length_take, List.length_drop]
    omega
  · intro hge
    apply List.take_of_length_le
    rw [List.length_drop]
    omega

/-- C7 witness: a 2-data-row file read with `start = 0`, `finish = 5`
(range extends past EOF). -/
theorem c7_range_read_witness :
    (0 : Nat) ≤ 5 ∧
    read_csv [wHdr, wA, wB] 0 ((5 : Int) - (0 : Int)) = Except.ok [wA, wB] ∧
    (([wA, wB] : List Record).length ≤ 5 →
      (([wA, wB] : List Record).drop 0).take (5 - 0)
        = ([wA, wB] : List Record).drop 0) := by
  have h := c7_range_read wHdr [wA, wB] 0 5 (by decide)
  exact ⟨by decide, h.1, h.2.2⟩

end ETL

namespace ETL

/-! ### Write-loop lemmas (C4) -/

theorem runInserts_ok_of_noFatal (out : Nat → WriteOutcome) :
    ∀ (chunks : List (List DocRecord)) (j acc : Nat),
      (∀ i, i < chunks.length → (out (j + i)).isFatal = false) →
      runInserts out chunks j acc = Except.ok (acc + expectedInserted out chunks j) := by
  intro chunks
  induction chunks with
  | nil => intro j acc _; simp [runInserts, expectedInserted]
  | cons c rest ih =>
    intro j acc hnf
    have h0 := hnf 0 (by simp)
    rw [Nat.add_zero] at h0
    have hrest : ∀ i, i < rest.length → (out (j + 1 + i)).isFatal = false := by
      intro i hi
      have := hnf (i + 1) (by simp; omega)
      rwa [show j + (i + 1) = j + 1 + i by omega] at this
    cases hc : out j with
    | ok =>
      simp only [runInserts, hc, expectedInserted]
      rw [ih (j + 1) (acc + c.length) hrest]
      simp only [Except.ok.injEq]
      omega
    | bulkError n =>
      simp only [runInserts, hc, expectedInserted]
      rw [ih (j + 1) (acc + n) hrest]
      simp only [Except.ok.injEq]
      omega
    | fatal msg =>
      rw [hc] at h0
      simp [WriteOutcome.isFatal] at h0

theorem expectedInserted_all_ok (out : Nat → WriteOutcome) :
    ∀ (chunks : List (List DocRecord)) (j : Nat),
      (∀ i, i < chunks.length → out (j + i) = WriteOutcome.ok) →
      expectedInserted out chunks j = (chunks.map List.length).sum := by
  intro chunks
  induction chunks with
  | nil => intro j _; simp [expectedInserted]
  | cons c rest ih =>
    intro j hok
    have h0 := hok 0 (by simp)
    rw [Nat.add_zero] at h0
    simp only [expectedInserted, h0, List.map_cons, List.sum_cons]
    congr 1
    apply ih
    intro i hi
    have := hok (i + 1) (by simp; omega)
    rwa [show j + (i + 1) = j + 1 + i by omega] at this

theorem expectedInserted_append (out : Nat → WriteOutcome) :
    ∀ (c1 c2 : List (List DocRecord)) (j : Nat),
      expectedInserted out (c1 ++ c2) j
        = expectedInserted out c1 j + expectedInserted out c2 (j + c1.length) := by
  intro c1
  induction c1 with
  | nil => intro c2 j; simp [expectedInserted]
  | cons c rest ih =>
    intro c2 j
    show expectedInserted out ((c :: rest) ++ c2) j = _
    rw [List.cons_append]
    simp only [expectedInserted, List.length_cons]
    rw [ih c2 (j + 1)]
    rw [show j + (rest.length + 1) = j + 1 + rest.length from by omega]
    omega

theorem toChunksGo_flatten (bs : Nat) (hbs : 0 < bs) :
    ∀ (fuel : Nat) (l : List DocRecord), l.length ≤ fuel →
      (toChunksGo bs fuel l).flatten = l := by
  intro fuel
  induction fuel with
  | zero =>
    intro l hl
    have : l = [] := List.eq_nil_of_length_eq_zero (by omega)
    subst this
    simp [toChunksGo]
  | succ n ih =>
    intro l hl
    cases l with
    | nil => simp [toChunksGo]
    | cons x xs =>
      cases bs with
      | zero => omega
      | succ b =>
        simp only [toChunksGo, List.flatten_cons]
        rw [ih ((x :: xs).drop (b + 1))
          (by simp only [List.length_drop, List.length_cons] at hl ⊢; omega)]
        exact List.take_append_drop (b + 1) (x :: xs)

theorem toChunks_flatten (bs : Nat) (l : List DocRecord) (hbs : 0 < bs) :
    (toChunks bs l).flatten = l :=
  toChunksGo_flatten bs hbs l.length l (Nat.le_refl _)

theorem runInserts_error_at (out : Nat → WriteOutcome) :
    ∀ (chunks : List (List DocRecord)) (j acc j0 : Nat) (msg : String),
      j ≤ j0 → j0 < j + chunks.length → out j0 = WriteOutcome.fatal msg →
      (∀ i, i < j0 → (out i).isFatal = false) →
      runInserts out chunks j acc = Except.error msg := by
  intro chunks
  induction chunks with
  | nil => intro j acc j0 msg hj hj2 _ _; simp at hj2; omega
  | cons c rest ih =>
    intro j acc j0 msg hj hj2 hfat hbefore
    by_cases hjj : j = j0
    · subst hjj
      simp [runInserts, hfat]
    · have hlt : j < j0 := Nat.lt_of_le_of_ne hj hjj
      have hnf := hbefore j hlt
      cases hc : out j with
      | ok =>
        simp only [runInserts, hc]
        exact ih (j + 1) (acc + c.length) j0 msg (by omega)
          (by simp at hj2 ⊢; omega) hfat hbefore
      | bulkError n =>
        simp only [runInserts, hc]
        exact ih (j + 1) (acc + n) j0 msg (by omega)
          (by simp at hj2 ⊢; omega) hfat hbefore
      | fatal m =>
        rw [hc] at hnf
        simp [WriteOutcome.isFatal] at hnf

/-- C4: with no fatal store failure, a chunk load always returns
statistics — a `BulkWriteError` in a sub-batch is caught: the loop adds
the store's reported `nInserted` for that sub-batch and continues, so a
sub-batch in which exactly 3 documents fail leaves `rows_inserted` short
by exactly 3; an outcome the `except BulkWriteError` clause does not
catch propagates out of the write loop as a raised error. -/
theorem c4_write_failure_tolerance (loader : BatchLoader) (clock : Nat → Nat)
    (out : Nat → WriteOutcome) (lines : List Record) (sr er : Nat)
    (bid : String) (hbs : 0 < loader.batch_size) (hse : sr ≤ er)
    (hne : lines ≠ []) (hnf : ∀ j, (out j).isFatal = false) :
    (∃ res, load_csv_chunk loader clock out lines sr er bid = Except.ok res) ∧
    (∀ (out2 : Nat → WriteOutcome) (docs : List DocRecord) (j0 : Nat)
        (h : j0 < (toChunks loader.batch_size docs).length),
      3 ≤ ((toChunks loader.batch_size docs).get ⟨j0, h⟩).length →
      out2 j0 = WriteOutcome.bulkError
        (((toChunks loader.batch_size docs).get ⟨j0, h⟩).length - 3) →
      (∀ i, i ≠ j0 → out2 i = WriteOutcome.ok) →
      runInserts out2 (toChunks loader.batch_size docs) 0 0
        = Except.ok (docs.length - 3)) ∧
    (∀ (out3 : Nat → WriteOutcome) (chunks : List (List DocRecord))
        (j0 : Nat) (msg : String),
      j0 < chunks.length → out3 j0 = WriteOutcome.fatal msg →
      (∀ i, i < j0 → (out3 i).isFatal = false) →
      runInserts out3 chunks 0 0 = Except.error msg) := by
  refine ⟨?_, ?_, ?_⟩
  · have hread : read_csv lines sr ((er : Int) - (sr : Int))
        = Except.ok (((keepLines lines sr).tail).take
            ((er : Int) - (sr : Int)).toNat) := by
      unfold read_csv
      rw [if_neg (by omega), if_neg hne]
    unfold load_csv_chunk
    rw [hread]
    simp only []
    rw [if_neg (Nat.pos_iff_ne_zero.mp hbs)]
    rw [runInserts_ok_of_noFatal out _ 0 0
      (fun i _ => by simpa only [Nat.zero_add] using hnf i)]
    exact ⟨_, rfl⟩
  · intro out2 docs j0 h h3 hbad hok
    have hnf2 : ∀ i, i < (toChunks loader.batch_size docs).length →
        (out2 (0 + i)).isFatal = false := by
      intro i _
      simp only [Nat.zero_add]
      by_cases hij : i = j0
      · subst hij; rw [hbad]; rfl
      · rw [hok i hij]; rfl
    rw [runInserts_ok_of_noFatal out2 _ 0 0 hnf2]
    have hd : toChunks loader.batch_size docs
        = (toChunks loader.batch_size docs).take j0
          ++ (toChunks loader.batch_size docs).get ⟨j0, h⟩
            :: (toChunks loader.batch_size docs).drop (j0 + 1) := by
      conv_lhs => rw [← List.take_append_drop j0 (toChunks loader.batch_size docs)]
      rw [List.get_eq_getElem]
      rw [List.drop_eq_getElem_cons h]
    have htl : ((toChunks loader.batch_size docs).take j0).length = j0 := by
      rw [List.length_take]
      omega
    have hexp : expectedInserted out2 (toChunks loader.batch_size docs) 0
        = (((toChunks loader.batch_size docs).take j0).map List.length).sum
          + ((((toChunks loader.batch_size docs).get ⟨j0, h⟩).length - 3)
            + ((((toChunks loader.batch_size docs).drop (j0 + 1)).map
                List.length).sum)) := by
      conv_lhs => rw [hd]
      rw [expectedInserted_append]
      congr 1
      · apply expectedInserted_all_ok
        intro i hi
        rw [htl] at hi
        apply hok
        omega
      · rw [htl]
        simp only [Nat.zero_add, expectedInserted, hbad]
        congr 1
        apply expectedInserted_all_ok
        intro i _
        apply hok
        omega
    have hsum := congrArg (fun L => (List.map List.length L).sum) hd
    simp only [List.map_append, List.sum_append, List.map_cons,
      List.sum_cons] at hsum
    have hlen : docs.length
        = (List.map List.length (toChunks loader.batch_size docs)).sum := by
      conv_lhs => rw [← toChunks_flatten loader.batch_size docs hbs]
      rw [List.length_flatten]
    rw [hexp]
    simp only [Except.ok.injEq]
    omega
  · intro out3 chunks j0 msg hj0 hfat hbefore
    exact runInserts_error_at out3 chunks 0 0 j0 msg (Nat.zero_le _)
      (by simpa using hj0) hfat hbefore

/-- C4 witness: a concrete all-success load returns statistics. -/
theorem c4_write_failure_tolerance_witness :
    (0 : Nat) < 1000 ∧ (0 : Nat) ≤ 1 ∧ ([wHdr, wA] ≠ ([] : List Record)) ∧
    (∀ j : Nat, ((fun _ => WriteOutcome.ok) j).isFatal = false) ∧
    (∃ res, load_csv_chunk ⟨1000, ⟨0, 0⟩⟩ (fun _ => 0)
        (fun _ => WriteOutcome.ok) [wHdr, wA] 0 1 "b" = Except.ok res) :=
  ⟨by decide, by decide, by decide, fun _ => rfl,
    (c4_write_failure_tolerance ⟨1000, ⟨0, 0⟩⟩ (fun _ => 0)
      (fun _ => WriteOutcome.ok) [wHdr, wA] 0 1 "b"
      (by decide) (by decide) (by decide) (fun _ => rfl)).1⟩

end ETL

namespace ETL

/-! ### Line counting (C8, C10) and the end-to-end scenario (C3) -/

theorem pyLineCount_cons_newline (l : List Char) (hne : l ≠ []) :
    pyLineCount ('\n' :: l) = 1 + pyLineCount l := by
  cases l with
  | nil => exact absurd rfl hne
  | cons d l2 => simp [pyLineCount]

theorem pyLineCount_cons_of_ne (c : Char) (hc : c ≠ '\n') (l : List Char)
    (hne : l ≠ []) : pyLineCount (c :: l) = pyLineCount l := by
  cases l with
  | nil => exact absurd rfl hne
  | cons d l2 => simp [pyLineCount, hc]

theorem pyLineCount_line (l : List Char) (hnn : '\n' ∉ l) :
    ∀ rest : List Char, pyLineCount (l ++ '\n' :: rest) = 1 + pyLineCount rest := by
  induction l with
  | nil =>
    intro rest
    cases rest with
    | nil => simp [pyLineCount]
    | cons d l2 => exact pyLineCount_cons_newline (d :: l2) (by simp)
  | cons c l ih =>
    intro rest
    have hc : c ≠ '\n' := fun h => hnn (by rw [← h]; exact List.mem_cons_self _ _)
    have hnl : '\n' ∉ l := fun h => hnn (List.mem_cons_of_mem _ h)
    rw [List.cons_append,
      pyLineCount_cons_of_ne c hc (l ++ '\n' :: rest) (by simp), ih hnl rest]

theorem pyLineCount_single_line (l : List Char) (hne : l ≠ [])
    (hnn : '\n' ∉ l) : pyLineCount l = 1 := by
  induction l with
  | nil => exact absurd rfl hne
  | cons c l ih =>
    cases l with
    | nil => rfl
    | cons d l2 =>
      have hc : c ≠ '\n' := fun h => hnn (by rw [← h]; exact List.mem_cons_self _ _)
      rw [pyLineCount_cons_of_ne c hc (d :: l2) (by simp)]
      exact ih (by simp) (fun h => hnn (List.mem_cons_of_mem _ h))

theorem encodeLines_count :
    ∀ (lines : List (List Char)) (tnl : Bool),
      (∀ l ∈ lines, l ≠ [] ∧ '\n' ∉ l) →
      pyLineCount (encodeLines lines tnl) = lines.length := by
  intro lines
  induction lines with
  | nil => intro tnl _; rfl
  | cons l rest ih =>
    intro tnl hall
    obtain ⟨hne, hnn⟩ := hall l (List.mem_cons_self _ _)
    cases rest with
    | nil =>
      cases tnl with
      | true =>
        show pyLineCount (l ++ ['\n']) = 1
        rw [show (['\n'] : List Char) = '\n' :: [] from rfl,
          pyLineCount_line l hnn []]
        rfl
      | false =>
        show pyLineCount (l ++ []) = 1
        rw [List.append_nil]
        exact pyLineCount_single_line l hne hnn
    | cons l2 rest2 =>
      show pyLineCount (l ++ '\n' :: encodeLines (l2 :: rest2) tnl)
        = (l :: l2 :: rest2).length
      rw [pyLineCount_line l hnn,
        ih tnl (fun x hx => hall x (List.mem_cons_of_mem _ hx))]
      simp [List.length_cons]
      omega

/-- C8: on a file made of a header line and `n` newline-free, non-empty
data rows, `get_csv_row_count` returns `n` whether or not the final line
is newline-terminated. -/
theorem c8_count_rows (header : List Char) (rows : List (List Char))
    (hh : header ≠ [] ∧ '\n' ∉ header)
    (hr : ∀ l ∈ rows, l ≠ [] ∧ '\n' ∉ l) :
    get_csv_row_count (encodeLines (header :: rows) true) = rows.length ∧
    get_csv_row_count (encodeLines (header :: rows) false) = rows.length := by
  have hall : ∀ l ∈ header :: rows, l ≠ [] ∧ '\n' ∉ l := by
    intro l hl
    rcases List.mem_cons.mp hl with h | h
    · rw [h]; exact hh
    · exact hr l h
  constructor <;>
  · unfold get_csv_row_count
    rw [encodeLines_count _ _ hall]
    simp only [List.length_cons]
    push_cast
    omega

/-- C8 witness: a 100-data-row file, with and without a trailing
newline. -/
theorem c8_count_rows_witness :
    ((List.replicate 100 (['r'] : List Char)).length = 100) ∧
    get_csv_row_count (encodeLines (['h'] :: List.replicate 100 ['r']) true)
      = 100 ∧
    get_csv_row_count (encodeLines (['h'] :: List.replicate 100 ['r']) false)
      = 100 := by
  have h := c8_count_rows ['h'] (List.replicate 100 ['r'])
    (by decide) (by decide)
  refine ⟨by decide, ?_, ?_⟩
  · rw [h.1]; simp [List.length_replicate]
  · rw [h.2]; simp [List.length_replicate]

/-- C10: `get_csv_row_count` subtracts one from the file's line count
unconditionally — a header-only file yields 0 and a completely empty file
yields the negative row count -1. -/
theorem c10_row_count_edge_cases :
    get_csv_row_count [] = -1 ∧
    ∀ (header : List Char) (tnl : Bool), header ≠ [] → '\n' ∉ header →
      get_csv_row_count (encodeLines [header] tnl) = 0 := by
  refine ⟨by decide, ?_⟩
  intro header tnl hne hnn
  unfold get_csv_row_count
  rw [encodeLines_count [header] tnl
    (by intro l hl; simp only [List.mem_singleton] at hl; rw [hl]; exact ⟨hne, hnn⟩)]
  simp

/-- C10 witness: the empty file and a concrete header-only file. -/
theorem c10_row_count_edge_cases_witness :
    get_csv_row_count [] = -1 ∧ ((['h'] : List Char) ≠ []) ∧
    get_csv_row_count (encodeLines [['h']] false) = 0 :=
  ⟨c10_row_count_edge_cases.1, by decide,
    c10_row_count_edge_cases.2 ['h'] false (by decide) (by decide)⟩

/-- C3: `load_full_csv` on the 10-data-row scenario file (data rows 2 and
5 duplicating rows 1 and 4 on `(ts, device)`, data row 8 missing
`device`), run on a freshly constructed loader, reports 10 rows read, 7
rows after cleansing, and cleansing stats of 2 duplicates removed and 1
missing-value row dropped (the row-count key of the full load is
`total_rows_read`). -/
theorem c3_end_to_end_scenario :
    (load_full_csv ⟨1000, ⟨0, 0⟩⟩ (fun _ => 0) (fun _ => WriteOutcome.ok)
        file10 (some "batch1") "20240101_000000").map (fun r => r.2.2)
      = Except.ok ⟨10, 7, 7, ⟨2, 1⟩, "batch1"⟩ := rfl

end ETL
